import Mathlib

/-!
Verification development for the research-assistant application
(src/main.py): structured-output reconciliation, the download export,
the Streamlit button handler, and the tool-calling agent loop.

Machine-level conventions: Python dicts that the code consults by key
are association lists; a Python value that may be a string or a dict is
the sum type PyVal; exceptions are Except errors.
-/

instance {ε α : Type} [DecidableEq ε] [DecidableEq α] : DecidableEq (Except ε α) := fun x y =>
  match x, y with
  | Except.ok a, Except.ok b => decidable_of_iff (a = b) (by simp)
  | Except.error a, Except.error b => decidable_of_iff (a = b) (by simp)
  | Except.ok _, Except.error _ => isFalse (fun h => Except.noConfusion h)
  | Except.error _, Except.ok _ => isFalse (fun h => Except.noConfusion h)

/-- A JSON value of the shapes the output schema uses: a string, or an
array of strings.  Field values of the schema are exactly these. -/
inductive JVal where
  | jstr (s : String)
  | jarr (xs : List String)
deriving Repr, DecidableEq

/-- The output schema record from src/main.py lines 13-17: the pydantic
model ResearchResponse with its four fields. -/
structure ResearchResponse where
  topic : String
  summary : String
  sources : List String
  tools_used : List String
deriving Repr, DecidableEq

/-- The opening-brace character of the serialized form. -/
def lbrace : Char := Char.ofNat 123

/-- The closing-brace character of the serialized form. -/
def rbrace : Char := Char.ofNat 125

/-- The double-quote character of the serialized form. -/
def dquote : Char := Char.ofNat 34

/-- JSON insignificant whitespace. -/
def isWs (c : Char) : Bool := c = ' ' || c = '\n' || c = '\t' || c = '\r'

/-- Skip insignificant whitespace. -/
def skipWs : List Char → List Char
  | [] => []
  | c :: cs => if isWs c then skipWs cs else c :: cs

/-- Read the characters of a string literal up to the closing quote
(the model has no escape sequences); returns the body and the rest. -/
def parseStrChars : List Char → Option (List Char × List Char)
  | [] => none
  | c :: cs =>
    if c = dquote then some ([], cs)
    else
      match parseStrChars cs with
      | some (s, r) => some (c :: s, r)
      | none => none

/-- Read a quoted string literal. -/
def parseJString (cs : List Char) : Option (String × List Char) :=
  match cs with
  | c :: r =>
    if c = dquote then (parseStrChars r).map (fun p => (String.mk p.1, p.2)) else none
  | [] => none

/-- Read the comma-separated items of a non-empty string array, up to
and including the closing bracket; fuel bounds the recursion. -/
def parseArrItems : Nat → List Char → Option (List String × List Char)
  | 0, _ => none
  | fuel + 1, cs =>
    match parseJString cs with
    | none => none
    | some (x, r) =>
      match skipWs r with
      | c :: r2 =>
        if c = ',' then
          match parseArrItems fuel (skipWs r2) with
          | some (xs, r3) => some (x :: xs, r3)
          | none => none
        else if c = ']' then some ([x], r2)
        else none
      | [] => none

/-- Read a (possibly empty) bracketed array of string literals. -/
def parseJArr (fuel : Nat) (cs : List Char) : Option (List String × List Char) :=
  match cs with
  | c :: r =>
    if c = '[' then
      match skipWs r with
      | d :: r2 => if d = ']' then some ([], r2) else parseArrItems fuel (d :: r2)
      | [] => none
    else none
  | [] => none

/-- Read one JSON value of the schema's shapes (string or string array).
The array fuel is the remaining input length, which bounds the number
of items any well-formed array can hold. -/
def parseJVal (cs : List Char) : Option (JVal × List Char) :=
  match cs with
  | c :: _ =>
    if c = dquote then (parseJString cs).map (fun p => (JVal.jstr p.1, p.2))
    else if c = '[' then (parseJArr cs.length cs).map (fun p => (JVal.jarr p.1, p.2))
    else none
  | [] => none

/-- Read the members of a non-empty JSON object, up to and including
the closing brace; fuel bounds the recursion. -/
def parseMembers : Nat → List Char → Option (List (String × JVal) × List Char)
  | 0, _ => none
  | fuel + 1, cs =>
    match parseJString cs with
    | none => none
    | some (k, r) =>
      match skipWs r with
      | c :: r2 =>
        if c = ':' then
          match parseJVal (skipWs r2) with
          | none => none
          | some (v, r3) =>
            match skipWs r3 with
            | d :: r4 =>
              if d = ',' then
                match parseMembers fuel (skipWs r4) with
                | some (ms, r5) => some ((k, v) :: ms, r5)
                | none => none
              else if d = rbrace then some ([(k, v)], r4)
              else none
            | [] => none
        else none
      | [] => none

/-- Read a whole JSON object from the text; fails unless the entire
text (up to whitespace) is one object.  The member fuel is generous:
every member consumes several characters, so length-plus-four never
runs out on input the grammar accepts. -/
def parseTopChars (cs : List Char) : Option (List (String × JVal)) :=
  match skipWs cs with
  | c :: r =>
    if c = lbrace then
      match skipWs r with
      | d :: r2 =>
        if d = rbrace then
          if (skipWs r2).isEmpty then some [] else none
        else
          match parseMembers (cs.length + 4) (d :: r2) with
          | some (ms, rest) => if (skipWs rest).isEmpty then some ms else none
          | none => none
      | [] => none
    else none
  | [] => none

/-- The schema-mismatch failure: the message together with the raw text
that failed to parse (the raw payload stays attached). -/
structure SchemaMismatchError where
  message : String
  raw_text : String
deriving Repr, DecidableEq

/-- Modelled from the spec: OutputSchema.parse, the parsing side of the
PydanticOutputParser built over ResearchResponse in src/main.py line 21
(the parser implementation itself is library code, absent from src/).
Per the spec it fails with SchemaMismatchError when required fields are
absent, mistyped, or the text is not the schema's serialized form; the
serialized form is a JSON object with the four schema fields, modelled
here without escape sequences inside string literals. -/
def OutputSchema.parse (text : String) : Except SchemaMismatchError ResearchResponse :=
  match parseTopChars text.data with
  | none => Except.error ⟨"text is not the schema's serialized form", text⟩
  | some fields =>
    match fields.lookup "topic", fields.lookup "summary",
          fields.lookup "sources", fields.lookup "tools_used" with
    | some (JVal.jstr t), some (JVal.jstr s), some (JVal.jarr src), some (JVal.jarr tu) =>
      Except.ok ⟨t, s, src, tu⟩
    | _, _, _, _ => Except.error ⟨"required fields are absent or mistyped", text⟩

/-- Quote a string for the serialized form. -/
def quoteChars (s : String) : List Char := dquote :: s.data ++ [dquote]

/-- Render array items separated by commas. -/
def renderItems : List String → List Char
  | [] => []
  | [x] => quoteChars x
  | x :: y :: xs => quoteChars x ++ ',' :: renderItems (y :: xs)

/-- Render a string array. -/
def renderArr (xs : List String) : List Char := '[' :: renderItems xs ++ [']']

/-- Render one JSON value of the schema's shapes. -/
def renderJVal : JVal → List Char
  | JVal.jstr s => quoteChars s
  | JVal.jarr xs => renderArr xs

/-- Render object members separated by commas. -/
def renderMembers : List (String × JVal) → List Char
  | [] => []
  | [(k, v)] => quoteChars k ++ ':' :: renderJVal v
  | (k, v) :: m :: ms => quoteChars k ++ ':' :: renderJVal v ++ ',' :: renderMembers (m :: ms)

/-- The four schema fields of a response, in declaration order, as
key-value pairs. -/
def responseFields (r : ResearchResponse) : List (String × JVal) :=
  [("topic", JVal.jstr r.topic), ("summary", JVal.jstr r.summary),
   ("sources", JVal.jarr r.sources), ("tools_used", JVal.jarr r.tools_used)]

/-- Modelled from the spec: the schema's serialized form of a complete
response, a JSON object carrying the four fields. -/
def serializeResponse (r : ResearchResponse) : String :=
  String.mk (lbrace :: renderMembers (responseFields r) ++ [rbrace])

/-- A string is plain when it contains no double quote, so its literal
needs no escape sequences. -/
def plainStr (s : String) : Bool := s.data.all (fun c => !(c = dquote))

/-- A response is plain when all of its string data is plain. -/
def plainResponse (r : ResearchResponse) : Bool :=
  plainStr r.topic && plainStr r.summary &&
    r.sources.all plainStr && r.tools_used.all plainStr

/-- A Python value of the two shapes the reconciliation code inspects:
a string, or a dict whose values are strings. -/
inductive PyVal where
  | pstr (s : String)
  | pdict (d : List (String × String))
deriving Repr, DecidableEq

/-- How reconciliation can fail: the parse raised a schema mismatch, or
the raw output was absent so attribute access raised. -/
inductive ReconcileError where
  | schemaMismatch (e : SchemaMismatchError)
  | attributeError (msg : String)
deriving Repr, DecidableEq

/-- The reconciliation of src/main.py lines 88-92: take the raw agent
response dict, fetch its output entry; when the output is directly a
string, parse it; otherwise fetch the entry under the conventional key
inside the container, defaulting to the empty string, and parse that.
A missing output entry makes the attribute access on None raise. -/
def reconcile (raw_response : List (String × PyVal)) : Except ReconcileError ResearchResponse :=
  match raw_response.lookup "output" with
  | some (PyVal.pstr output) =>
    (OutputSchema.parse output).mapError ReconcileError.schemaMismatch
  | some (PyVal.pdict output) =>
    (OutputSchema.parse ((output.lookup "text").getD "")).mapError ReconcileError.schemaMismatch
  | none => Except.error (ReconcileError.attributeError "NoneType has no attribute get")

/-- The export dict of src/main.py lines 119-124: the four fields of
the structured response, in the order the code writes them. -/
def research_data (r : ResearchResponse) : List (String × JVal) :=
  [("topic", JVal.jstr r.topic), ("summary", JVal.jstr r.summary),
   ("sources", JVal.jarr r.sources), ("tools_used", JVal.jarr r.tools_used)]

/-- The serialized payload of the download button (src/main.py line
128): the export dict dumped as JSON, modelled with the same renderer
as the schema's serialized form. -/
def downloadData (r : ResearchResponse) : String :=
  String.mk (lbrace :: renderMembers (research_data r) ++ [rbrace])

/-- The Python str.replace of a space by an underscore: with
single-character arguments it replaces every space, character by
character. -/
def underscoreSpaces (s : String) : String :=
  String.mk (s.data.map (fun c => if c = ' ' then '_' else c))

/-- The download file name of src/main.py line 129: the f-string
research_ plus the topic with spaces replaced by underscores plus
.json. -/
def downloadFileName (r : ResearchResponse) : String :=
  "research_" ++ underscoreSpaces r.topic ++ ".json"

/-- The display text of a reconciliation failure, as interpolated into
the error box. -/
def errText : ReconcileError → String
  | ReconcileError.schemaMismatch e => e.message ++ ": " ++ e.raw_text
  | ReconcileError.attributeError m => m

/-- What the model invocation on src/main.py line 85 did: returned a
raw response dict, or raised with a message. -/
inductive InvokeOutcome where
  | returns (raw_response : List (String × PyVal))
  | raises (msg : String)

/-- An uncaught Python exception escaping the handler. -/
inductive PyException where
  | unboundLocal (name : String)
deriving Repr, DecidableEq

/-- One user-visible Streamlit element emitted by the handler. -/
inductive UIEvent where
  | successBox (msg : String)
  | resultsView (r : ResearchResponse)
  | downloadButton (data file : String)
  | errorBox (msg : String)
  | rawExpander (raw : List (String × PyVal))
  | warningBox (msg : String)
deriving Repr, DecidableEq

/-- The try/except body of src/main.py lines 84-135, given the outcome
of the model invocation: on success, reconcile and either display the
results with the download button, or enter the except block, which
shows the error box and then writes the raw response into an expander.
When the invocation itself raised, the except block's reference to
raw_response is unbound, so after the error box the handler itself
raises UnboundLocalError and no raw payload is shown. -/
def runResearch (outcome : InvokeOutcome) : List UIEvent × Option PyException :=
  match outcome with
  | InvokeOutcome.raises e =>
    ([UIEvent.errorBox ("❌ Error: " ++ e)], some (PyException.unboundLocal "raw_response"))
  | InvokeOutcome.returns raw_response =>
    match reconcile raw_response with
    | Except.ok structured_response =>
      ([UIEvent.successBox "✅ Research completed!",
        UIEvent.resultsView structured_response,
        UIEvent.downloadButton (downloadData structured_response)
          (downloadFileName structured_response)], none)
    | Except.error e =>
      ([UIEvent.errorBox ("❌ Error: " ++ errText e),
        UIEvent.rawExpander raw_response], none)

/-- The research-button handler of src/main.py lines 79-137: a falsy
(empty) query short-circuits to the warning before the agent is set up
or invoked; a non-empty query runs the research body. -/
def startResearch (query : String) (outcome : InvokeOutcome) : List UIEvent × Option PyException :=
  if query = "" then ([UIEvent.warningBox "⚠️ Please enter a research query."], none)
  else runResearch outcome

/-- A model-proposed step: invoke a named tool on an input, or emit the
final answer text. -/
inductive AgentStep where
  | toolInvocation (tool_name tool_input : String)
  | finalAnswer (raw_text : String)

/-- One turn of the conversation context. -/
inductive Turn where
  | systemTurn (s : String)
  | humanTurn (s : String)
  | observationTurn (s : String)
deriving Repr, DecidableEq

/-- A registry entry: name, description, and the invoke function, which
may raise (modelled as Except). -/
structure ToolDescriptor where
  name : String
  description : String
  invoke : String → Except String String

/-- Modelled from the spec: the tool registry of src/main.py line 34,
[search_tool, save_tool, wiki_tool] imported from tools.py, which is
absent from src/.  The registry holds the names search, save and wiki;
the invoke behaviour is a parameter because the tools reach the network
and the file system. -/
def toolRegistry (impl : String → String → Except String String) : List ToolDescriptor :=
  [⟨"search", "Search the web for information", impl "search"⟩,
   ⟨"save", "Save research output to a file", impl "save"⟩,
   ⟨"wiki", "Look up background knowledge on the encyclopedia", impl "wiki"⟩]

/-- How the agent loop fails. -/
inductive LoopError where
  | unknownTool (name : String)
  | agentExhausted
  | transport (e : String)
deriving Repr, DecidableEq

/-- The loop's terminal output: the raw final-answer text and the
ordered trace of executed tool invocations. -/
structure LoopResult where
  raw_output : String
  tool_call_trace : List (String × String)
deriving Repr, DecidableEq

/-- Modelled from the spec: the AgentExecutor loop built on src/main.py
lines 35-36, whose implementation is library code absent from src/.
From DECIDING, the model either emits the final answer (DONE), or
names a tool: an unregistered name fails with UnknownToolError before
any invoke; a registered tool is invoked synchronously, a raise being
captured as a failure-description observation, the observation is
appended to the context, the trace grows by that invocation, and the
loop returns to DECIDING with one fewer remaining iteration.  A model
transport failure is loop-fatal, and an exhausted iteration budget
fails with AgentExhaustedError. -/
def runLoop (complete : List Turn → Except String AgentStep)
    (tools : List ToolDescriptor) :
    Nat → List Turn → List (String × String) → Except LoopError LoopResult
  | 0, _, _ => Except.error LoopError.agentExhausted
  | n + 1, ctx, trace =>
    match complete ctx with
    | Except.error e => Except.error (LoopError.transport e)
    | Except.ok (AgentStep.finalAnswer t) => Except.ok ⟨t, trace⟩
    | Except.ok (AgentStep.toolInvocation name input) =>
      match tools.find? (fun td => td.name == name) with
      | none => Except.error (LoopError.unknownTool name)
      | some td =>
        match td.invoke input with
        | Except.ok obs =>
          runLoop complete tools n (ctx ++ [Turn.observationTurn obs]) (trace ++ [(name, input)])
        | Except.error msg =>
          runLoop complete tools n
            (ctx ++ [Turn.observationTurn ("Tool execution failed: " ++ msg)])
            (trace ++ [(name, input)])

/-- A JSON value is plain when all of its string data is plain. -/
def plainJVal : JVal → Bool
  | JVal.jstr s => plainStr s
  | JVal.jarr xs => xs.all plainStr

theorem parseStrChars_append (l rest : List Char) (h : ∀ c ∈ l, c ≠ dquote) :
    parseStrChars (l ++ dquote :: rest) = some (l, rest) := by
  induction l with
  | nil => simp [parseStrChars]
  | cons c t ih =>
    have hc : c ≠ dquote := h c (by simp)
    simp [parseStrChars, hc, ih (fun d hd => h d (by simp [hd]))]

theorem plainStr_chars {x : String} (h : plainStr x = true) : ∀ c ∈ x.data, c ≠ dquote := by
  simpa [plainStr, List.all_eq_true] using h

theorem parseJString_quote (x : String) (rest : List Char) (h : plainStr x = true) :
    parseJString (quoteChars x ++ rest) = some (x, rest) := by
  have h2 : ∀ c ∈ x.data, c ≠ dquote := plainStr_chars h
  show parseJString ((dquote :: (x.data ++ [dquote])) ++ rest) = some (x, rest)
  have hassoc : (dquote :: (x.data ++ [dquote])) ++ rest = dquote :: (x.data ++ dquote :: rest) := by
    simp
  rw [hassoc]
  simp [parseJString, parseStrChars_append x.data rest h2]

theorem skipWs_cons (c : Char) (cs : List Char) (h : isWs c = false) :
    skipWs (c :: cs) = c :: cs := by
  simp [skipWs, h]

example : skipWs (dquote :: []) = dquote :: [] := by decide

theorem renderItems_head (y : String) (ys : List String) :
    ∃ t, renderItems (y :: ys) = dquote :: t := by
  cases ys with
  | nil => exact ⟨y.data ++ [dquote], rfl⟩
  | cons z zs => exact ⟨(y.data ++ [dquote]) ++ ',' :: renderItems (z :: zs), by simp [renderItems, quoteChars]⟩

theorem parseArrItems_render :
    ∀ (xs : List String) (fuel : Nat) (rest : List Char),
      xs.length ≤ fuel → (∀ x ∈ xs, plainStr x = true) → xs ≠ [] →
      parseArrItems fuel (renderItems xs ++ ']' :: rest) = some (xs, rest) := by
  intro xs
  induction xs with
  | nil => intro fuel rest _ _ h3; exact absurd rfl h3
  | cons x tail ih =>
    intro fuel rest hle hplain _
    cases fuel with
    | zero => simp at hle
    | succ f =>
      have hx : plainStr x = true := hplain x (by simp)
      cases tail with
      | nil =>
        have hq := parseJString_quote x (']' :: rest) hx
        simp only [renderItems, List.append_assoc, List.cons_append, List.nil_append]
        simp [parseArrItems, hq, skipWs_cons ']' rest (by decide)]
      | cons y ys =>
        have hq := parseJString_quote x (',' :: (renderItems (y :: ys) ++ ']' :: rest)) hx
        obtain ⟨t, ht⟩ := renderItems_head y ys
        have htail : parseArrItems f (renderItems (y :: ys) ++ ']' :: rest) = some (y :: ys, rest) :=
          ih f rest (by simpa using Nat.le_of_succ_le_succ hle)
            (fun z hz => hplain z (by simp [hz])) (by simp)
        have harr : renderItems (x :: y :: ys) ++ ']' :: rest
            = quoteChars x ++ ',' :: (renderItems (y :: ys) ++ ']' :: rest) := by
          simp [renderItems]
        rw [harr]
        simp only [parseArrItems]
        rw [hq]
        simp only [skipWs_cons ',' _ (by decide)]
        simp only [if_true]
        rw [ht, List.cons_append, skipWs_cons dquote _ (by decide), ← List.cons_append, ← ht,
          htail]

theorem renderItems_length (xs : List String) : xs.length ≤ (renderItems xs).length := by
  induction xs with
  | nil => simp [renderItems]
  | cons x tail ih =>
    cases tail with
    | nil => simp [renderItems, quoteChars]
    | cons y ys =>
      rw [show renderItems (x :: y :: ys) = quoteChars x ++ ',' :: renderItems (y :: ys) from rfl]
      simp only [List.length_cons] at ih
      simp only [quoteChars, List.length_append, List.length_cons, List.length_nil]
      omega

theorem parseJArr_render (xs : List String) (fuel : Nat) (rest : List Char)
    (hfuel : xs.length ≤ fuel) (hplain : ∀ x ∈ xs, plainStr x = true) :
    parseJArr fuel (renderArr xs ++ rest) = some (xs, rest) := by
  cases xs with
  | nil =>
    simp [renderArr, renderItems, parseJArr, skipWs_cons ']' rest (by decide)]
  | cons x tail =>
    obtain ⟨t, ht⟩ := renderItems_head x tail
    have harr : renderArr (x :: tail) ++ rest = '[' :: (renderItems (x :: tail) ++ ']' :: rest) := by
      simp [renderArr]
    rw [harr]
    simp only [parseJArr, if_true, ht, List.cons_append, skipWs_cons dquote _ (by decide)]
    rw [if_neg (by decide)]
    rw [← List.cons_append, ← ht]
    exact parseArrItems_render (x :: tail) fuel rest hfuel hplain (by simp)

theorem renderJVal_head (v : JVal) : ∃ c t, renderJVal v = c :: t ∧ isWs c = false := by
  cases v with
  | jstr s => exact ⟨dquote, s.data ++ [dquote], rfl, by decide⟩
  | jarr xs => exact ⟨'[', renderItems xs ++ [']'], rfl, by decide⟩

theorem parseJVal_render (v : JVal) (rest : List Char) (hplain : plainJVal v = true) :
    parseJVal (renderJVal v ++ rest) = some (v, rest) := by
  cases v with
  | jstr s =>
    have hq := parseJString_quote s rest hplain
    have hq2 : parseJString (dquote :: (s.data ++ dquote :: rest)) = some (s, rest) := by
      rw [show dquote :: (s.data ++ dquote :: rest) = quoteChars s ++ rest by simp [quoteChars]]
      exact hq
    rw [show renderJVal (JVal.jstr s) ++ rest = dquote :: (s.data ++ dquote :: rest) by
      simp [renderJVal, quoteChars]]
    simp [parseJVal, hq2]
  | jarr xs =>
    have hplain2 : ∀ x ∈ xs, plainStr x = true := by
      simpa [plainJVal, List.all_eq_true] using hplain
    have hlen : xs.length ≤ ('[' :: (renderItems xs ++ ']' :: rest)).length := by
      have := renderItems_length xs
      simp only [List.length_cons, List.length_append]
      omega
    have harr := parseJArr_render xs ('[' :: (renderItems xs ++ ']' :: rest)).length rest hlen hplain2
    rw [show renderArr xs ++ rest = '[' :: (renderItems xs ++ ']' :: rest) by simp [renderArr]] at harr
    rw [show renderJVal (JVal.jarr xs) ++ rest = '[' :: (renderItems xs ++ ']' :: rest) by
      simp [renderJVal, renderArr]]
    simp only [parseJVal]
    rw [if_neg (show ¬ (('[' : Char) = dquote) by decide)]
    simp only [if_true]
    rw [harr]
    rfl

theorem renderMembers_head (k : String) (v : JVal) (ms : List (String × JVal)) :
    ∃ t, renderMembers ((k, v) :: ms) = dquote :: t := by
  cases ms with
  | nil => exact ⟨(k.data ++ [dquote]) ++ ':' :: renderJVal v, by simp [renderMembers, quoteChars]⟩
  | cons m tl =>
    exact ⟨(k.data ++ [dquote]) ++ ':' :: (renderJVal v ++ ',' :: renderMembers (m :: tl)),
      by simp [renderMembers, quoteChars]⟩

theorem parseMembers_render :
    ∀ (ms : List (String × JVal)) (fuel : Nat) (rest : List Char),
      ms.length ≤ fuel → (∀ kv ∈ ms, plainStr kv.1 = true ∧ plainJVal kv.2 = true) → ms ≠ [] →
      parseMembers fuel (renderMembers ms ++ rbrace :: rest) = some (ms, rest) := by
  intro ms
  induction ms with
  | nil => intro fuel rest _ _ h3; exact absurd rfl h3
  | cons kv tail ih =>
    obtain ⟨k, v⟩ := kv
    intro fuel rest hle hplain _
    cases fuel with
    | zero => simp at hle
    | succ f =>
      have hk : plainStr k = true := (hplain (k, v) (by simp)).1
      have hv : plainJVal v = true := (hplain (k, v) (by simp)).2
      obtain ⟨c, t, hct, hcw⟩ := renderJVal_head v
      cases tail with
      | nil =>
        have hq := parseJString_quote k (':' :: (renderJVal v ++ rbrace :: rest)) hk
        have hshape : renderMembers [(k, v)] ++ rbrace :: rest
            = quoteChars k ++ ':' :: (renderJVal v ++ rbrace :: rest) := by
          simp [renderMembers]
        rw [hshape]
        simp only [parseMembers]
        rw [hq]
        simp only [skipWs_cons ':' _ (by decide), if_true]
        rw [hct, List.cons_append, skipWs_cons c _ hcw, ← List.cons_append, ← hct]
        rw [parseJVal_render v (rbrace :: rest) hv]
        simp only [skipWs_cons rbrace _ (by decide)]
        rw [if_neg (show ¬ (rbrace = ',') by decide)]
        simp only [if_true]
      | cons m tl =>
        obtain ⟨k2, v2⟩ := m
        have hq := parseJString_quote k
          (':' :: (renderJVal v ++ ',' :: (renderMembers ((k2, v2) :: tl) ++ rbrace :: rest))) hk
        obtain ⟨t2, ht2⟩ := renderMembers_head k2 v2 tl
        have htail : parseMembers f (renderMembers ((k2, v2) :: tl) ++ rbrace :: rest)
            = some ((k2, v2) :: tl, rest) :=
          ih f rest (by simp only [List.length_cons] at hle ⊢; omega)
            (fun z hz => hplain z (by simp [hz])) (by simp)
        have hshape : renderMembers ((k, v) :: (k2, v2) :: tl) ++ rbrace :: rest
            = quoteChars k ++ ':' ::
                (renderJVal v ++ ',' :: (renderMembers ((k2, v2) :: tl) ++ rbrace :: rest)) := by
          simp [renderMembers]
        rw [hshape]
        simp only [parseMembers]
        rw [hq]
        simp only [skipWs_cons ':' _ (by decide), if_true]
        rw [hct, List.cons_append, skipWs_cons c _ hcw, ← List.cons_append, ← hct]
        rw [parseJVal_render v (',' :: (renderMembers ((k2, v2) :: tl) ++ rbrace :: rest)) hv]
        simp only [skipWs_cons ',' _ (by decide), if_true]
        rw [ht2, List.cons_append, skipWs_cons dquote _ (by decide), ← List.cons_append, ← ht2]
        rw [htail]

theorem parseTopChars_serialize (r : ResearchResponse) (h : plainResponse r = true) :
    parseTopChars (lbrace :: (renderMembers (responseFields r) ++ [rbrace]))
      = some (responseFields r) := by
  have h4 : plainStr r.topic = true ∧ plainStr r.summary = true ∧
      r.sources.all plainStr = true ∧ r.tools_used.all plainStr = true := by
    simpa [plainResponse, Bool.and_eq_true, and_assoc] using h
  have hfields : ∀ kv ∈ responseFields r, plainStr kv.1 = true ∧ plainJVal kv.2 = true := by
    intro kv hkv
    simp only [responseFields, List.mem_cons, List.not_mem_nil, or_false] at hkv
    rcases hkv with rfl | rfl | rfl | rfl
    · exact ⟨show plainStr "topic" = true by decide, h4.1⟩
    · exact ⟨show plainStr "summary" = true by decide, h4.2.1⟩
    · exact ⟨show plainStr "sources" = true by decide, h4.2.2.1⟩
    · exact ⟨show plainStr "tools_used" = true by decide, h4.2.2.2⟩
  obtain ⟨t, ht⟩ := renderMembers_head "topic" (JVal.jstr r.topic) (responseFields r).tail
  have hhead : renderMembers (responseFields r) = dquote :: t := ht
  have hm := parseMembers_render (responseFields r)
    ((lbrace :: (renderMembers (responseFields r) ++ [rbrace])).length + 4) []
    (by simp [responseFields]) hfields (by simp [responseFields])
  simp only [hhead, List.cons_append] at hm
  have hsk : skipWs ([] : List Char) = [] := rfl
  have hll : (lbrace = lbrace) = True := eq_true rfl
  have hdr : (dquote = rbrace) = False := eq_false (by decide)
  simp only [hhead, List.cons_append]
  simp only [parseTopChars, skipWs_cons lbrace _ (by decide), hll, if_true,
    skipWs_cons dquote _ (by decide), hdr, if_false, hm, hsk, List.isEmpty_nil]

/-- The round trip at the core: parsing the serialized form of any
plain response yields exactly that response. -/
theorem parse_serialize (r : ResearchResponse) (h : plainResponse r = true) :
    OutputSchema.parse (serializeResponse r) = Except.ok r := by
  have hdata : (serializeResponse r).data
      = lbrace :: (renderMembers (responseFields r) ++ [rbrace]) := rfl
  simp only [OutputSchema.parse, hdata, parseTopChars_serialize r h]
  rfl

theorem parse_empty : OutputSchema.parse ""
    = Except.error ⟨"text is not the schema's serialized form", ""⟩ := by decide

/-- The scenario response used by the concrete witnesses. -/
def sampleResponse : ResearchResponse :=
  ⟨"Renewable Energy", "Trends are improving", ["https://example.org/a"], ["search"]⟩

/-- A malformed JSON-like terminal text missing the sources field. -/
def missingSourcesText : String :=
  "\x7b\"topic\":\"Renewable Energy\",\"summary\":\"Trends\",\"tools_used\":[]\x7d"

/-- Claim C1: reconciliation is two-tier: a raw output that is directly
a string is parsed with OutputSchema.parse; otherwise the answer text
is looked up in the container under the conventional key and parsed
when present; when the key is absent, reconciliation fails (the parse
of the defaulted empty string always fails with a schema mismatch). -/
theorem reconcile_two_tier :
    (∀ (raw : List (String × PyVal)) (s : String),
        raw.lookup "output" = some (PyVal.pstr s) →
        reconcile raw = (OutputSchema.parse s).mapError ReconcileError.schemaMismatch)
  ∧ (∀ (raw : List (String × PyVal)) (d : List (String × String)) (t : String),
        raw.lookup "output" = some (PyVal.pdict d) → d.lookup "text" = some t →
        reconcile raw = (OutputSchema.parse t).mapError ReconcileError.schemaMismatch)
  ∧ (∀ (raw : List (String × PyVal)) (d : List (String × String)),
        raw.lookup "output" = some (PyVal.pdict d) → d.lookup "text" = none →
        ∃ e, reconcile raw = Except.error (ReconcileError.schemaMismatch e)) := by
  refine ⟨?_, ?_, ?_⟩
  · intro raw s h
    simp [reconcile, h]
  · intro raw d t h1 h2
    simp [reconcile, h1, h2]
  · intro raw d h1 h2
    refine ⟨⟨"text is not the schema's serialized form", ""⟩, ?_⟩
    simp [reconcile, h1, h2, parse_empty, Except.mapError]

/-- Witness for C1 at concrete raw responses. -/
theorem reconcile_two_tier_witness :
    (reconcile [("output", PyVal.pstr "hello")]
      = (OutputSchema.parse "hello").mapError ReconcileError.schemaMismatch)
  ∧ (reconcile [("output", PyVal.pdict [("text", "hello")])]
      = (OutputSchema.parse "hello").mapError ReconcileError.schemaMismatch)
  ∧ (∃ e, reconcile [("output", PyVal.pdict [("other", "x")])]
      = Except.error (ReconcileError.schemaMismatch e)) :=
  ⟨reconcile_two_tier.1 [("output", PyVal.pstr "hello")] "hello" rfl,
   reconcile_two_tier.2.1 [("output", PyVal.pdict [("text", "hello")])] [("text", "hello")]
     "hello" rfl rfl,
   reconcile_two_tier.2.2 [("output", PyVal.pdict [("other", "x")])] [("other", "x")] rfl rfl⟩

/-- Claim C2: for every well-formed terminal string matching the schema
instructions (the serialized form of a plain response), reconciliation
returns a ResearchResponse whose four fields equal the parsed values
exactly: the round trip through parse is lossless. -/
theorem reconcile_round_trip (r : ResearchResponse) (h : plainResponse r = true) :
    OutputSchema.parse (serializeResponse r) = Except.ok r
  ∧ reconcile [("output", PyVal.pstr (serializeResponse r))] = Except.ok r := by
  refine ⟨parse_serialize r h, ?_⟩
  simp [reconcile, parse_serialize r h, Except.mapError]

/-- Witness for C2 at the scenario response. -/
theorem reconcile_round_trip_witness :
    OutputSchema.parse (serializeResponse sampleResponse) = Except.ok sampleResponse
  ∧ reconcile [("output", PyVal.pstr (serializeResponse sampleResponse))]
      = Except.ok sampleResponse :=
  reconcile_round_trip sampleResponse (by decide)

/-- Claim C3: reconciling a container that nests the terminal text
under the conventional key gives exactly the same result as reconciling
the flat string. -/
theorem reconcile_nested_eq_flat (d : List (String × String)) (t : String)
    (h : d.lookup "text" = some t) :
    reconcile [("output", PyVal.pdict d)] = reconcile [("output", PyVal.pstr t)] := by
  simp [reconcile, h]

/-- Witness for C3 at a concrete container. -/
theorem reconcile_nested_eq_flat_witness :
    reconcile [("output", PyVal.pdict [("text", "abc")])]
      = reconcile [("output", PyVal.pstr "abc")] :=
  reconcile_nested_eq_flat [("text", "abc")] "abc" rfl

/-- Claim C4: a successful parse guarantees all four fields were
present and type-correct in the text, with exactly the parsed values;
and the scenario text missing the sources field makes reconciliation
fail with a SchemaMismatchError carrying the raw text — never a
response with a silently defaulted empty sources list. -/
theorem reconcile_fields_or_fail :
    (∀ (t : String) (r : ResearchResponse), OutputSchema.parse t = Except.ok r →
        ∃ fields, parseTopChars t.data = some fields
          ∧ fields.lookup "topic" = some (JVal.jstr r.topic)
          ∧ fields.lookup "summary" = some (JVal.jstr r.summary)
          ∧ fields.lookup "sources" = some (JVal.jarr r.sources)
          ∧ fields.lookup "tools_used" = some (JVal.jarr r.tools_used))
  ∧ reconcile [("output", PyVal.pstr missingSourcesText)]
      = Except.error (ReconcileError.schemaMismatch
          ⟨"required fields are absent or mistyped", missingSourcesText⟩)
  ∧ (∀ r2 : ResearchResponse,
        reconcile [("output", PyVal.pstr missingSourcesText)] ≠ Except.ok r2) := by
  refine ⟨?_, by decide, ?_⟩
  · intro t r h
    simp only [OutputSchema.parse] at h
    split at h
    · exact absurd h (by simp)
    · rename_i fields hp
      split at h
      · rename_i t1 s1 src tu h1 h2 h3 h4
        injection h with h5
        subst h5
        exact ⟨fields, hp, h1, h2, h3, h4⟩
      · exact absurd h (by simp)
  · intro r2
    rw [show reconcile [("output", PyVal.pstr missingSourcesText)]
          = Except.error (ReconcileError.schemaMismatch
              ⟨"required fields are absent or mistyped", missingSourcesText⟩) by decide]
    simp

/-- Witness for C4 at a concrete schema-compliant text. -/
theorem reconcile_fields_or_fail_witness :
    ∃ fields, parseTopChars (serializeResponse sampleResponse).data = some fields
      ∧ fields.lookup "topic" = some (JVal.jstr sampleResponse.topic)
      ∧ fields.lookup "summary" = some (JVal.jstr sampleResponse.summary)
      ∧ fields.lookup "sources" = some (JVal.jarr sampleResponse.sources)
      ∧ fields.lookup "tools_used" = some (JVal.jarr sampleResponse.tools_used) :=
  reconcile_fields_or_fail.1 (serializeResponse sampleResponse) sampleResponse (by decide)

/-- Claim C6: the downloadable export is field-for-field identical to
the reconciled response — re-parsing the exported JSON recovers exactly
the same four fields — and its file name is research_ followed by the
topic with every space replaced by an underscore, plus .json. -/
theorem download_export_faithful :
    (∀ r : ResearchResponse, plainResponse r = true →
        OutputSchema.parse (downloadData r) = Except.ok r)
  ∧ (∀ r : ResearchResponse,
        (downloadFileName r).data
          = "research_".data ++ r.topic.data.map (fun c => if c = ' ' then '_' else c)
              ++ ".json".data)
  ∧ downloadFileName ⟨"Renewable Energy", "s", [], []⟩ = "research_Renewable_Energy.json" := by
  refine ⟨?_, fun r => by simp [downloadFileName, underscoreSpaces], by decide⟩
  intro r h
  have hsame : downloadData r = serializeResponse r := rfl
  rw [hsame]
  exact parse_serialize r h

/-- Witness for C6 at the scenario response. -/
theorem download_export_faithful_witness :
    OutputSchema.parse (downloadData sampleResponse) = Except.ok sampleResponse :=
  download_export_faithful.1 sampleResponse (by decide)

/-- Claim C5, settled against the code: after a successful model
invocation, a reconciliation failure shows the error box together with
the raw payload expander; but when the model invocation itself raises,
the except block's reference to the never-assigned raw_response makes
the handler raise UnboundLocalError after the error box, so the raw
payload branch can never display anything in that case. -/
theorem error_display_behaviour :
    runResearch (InvokeOutcome.returns [("output", PyVal.pstr "")])
      = ([UIEvent.errorBox ("❌ Error: " ++ errText (ReconcileError.schemaMismatch
            ⟨"text is not the schema's serialized form", ""⟩)),
          UIEvent.rawExpander [("output", PyVal.pstr "")]], none)
  ∧ runResearch (InvokeOutcome.raises "transport failure")
      = ([UIEvent.errorBox "❌ Error: transport failure"],
         some (PyException.unboundLocal "raw_response")) := by
  exact ⟨by decide, rfl⟩

/-- Claim C7: when the model names a tool outside the registry of
search, save and wiki, the loop fails with UnknownToolError — for every
possible invoke behaviour of the registered tools, so no invoke can
have been called. -/
theorem unknown_tool_fails (impl : String → String → Except String String)
    (complete : List Turn → Except String AgentStep)
    (ctx : List Turn) (trace : List (String × String)) (n : Nat) (name input : String)
    (hstep : complete ctx = Except.ok (AgentStep.toolInvocation name input))
    (hname : name ∉ ["search", "save", "wiki"]) :
    runLoop complete (toolRegistry impl) (n + 1) ctx trace
      = Except.error (LoopError.unknownTool name) := by
  simp only [List.mem_cons, List.not_mem_nil, or_false, not_or] at hname
  obtain ⟨h1, h2, h3⟩ := hname
  have e1 : ("search" == name) = false := beq_eq_false_iff_ne.mpr (Ne.symm h1)
  have e2 : ("save" == name) = false := beq_eq_false_iff_ne.mpr (Ne.symm h2)
  have e3 : ("wiki" == name) = false := beq_eq_false_iff_ne.mpr (Ne.symm h3)
  simp [runLoop, hstep, toolRegistry, List.find?, e1, e2, e3]

/-- Witness for C7 with a model that proposes an unregistered tool. -/
theorem unknown_tool_fails_witness :
    runLoop (fun _ => Except.ok (AgentStep.toolInvocation "calculator" "2+2"))
        (toolRegistry (fun _ _ => Except.ok "")) (0 + 1) [] []
      = Except.error (LoopError.unknownTool "calculator") :=
  unknown_tool_fails (fun _ _ => Except.ok "")
    (fun _ => Except.ok (AgentStep.toolInvocation "calculator" "2+2"))
    [] [] 0 "calculator" "2+2" rfl (by decide)

/-- Claim C8: a tool that raises during invoke does not terminate the
loop: the failure becomes an observation turn containing a failure
description, handed to the next deciding phase, and such a loop can
still reach DONE with a final answer. -/
theorem tool_failure_recovered :
    (∀ (complete : List Turn → Except String AgentStep) (tools : List ToolDescriptor)
        (n : Nat) (ctx : List Turn) (trace : List (String × String))
        (name input msg : String) (td : ToolDescriptor),
        complete ctx = Except.ok (AgentStep.toolInvocation name input) →
        tools.find? (fun t2 => t2.name == name) = some td →
        td.invoke input = Except.error msg →
        runLoop complete tools (n + 1) ctx trace
          = runLoop complete tools n
              (ctx ++ [Turn.observationTurn ("Tool execution failed: " ++ msg)])
              (trace ++ [(name, input)]))
  ∧ (∃ (complete : List Turn → Except String AgentStep)
        (impl : String → String → Except String String),
        impl "search" "q" = Except.error "network down"
        ∧ runLoop complete (toolRegistry impl) 2 [] []
            = Except.ok ⟨"final answer", [("search", "q")]⟩) := by
  constructor
  · intro complete tools n ctx trace name input msg td h1 h2 h3
    simp [runLoop, h1, h2, h3]
  · refine ⟨fun ctx2 =>
      match ctx2 with
      | [] => Except.ok (AgentStep.toolInvocation "search" "q")
      | _ :: _ => Except.ok (AgentStep.finalAnswer "final answer"),
      fun _ _ => Except.error "network down", rfl, ?_⟩
    rfl

/-- Witness for C8 with a concrete raising tool. -/
theorem tool_failure_recovered_witness :
    runLoop (fun _ => Except.ok (AgentStep.toolInvocation "search" "q"))
        (toolRegistry (fun _ _ => Except.error "boom")) (1 + 1) [] []
      = runLoop (fun _ => Except.ok (AgentStep.toolInvocation "search" "q"))
          (toolRegistry (fun _ _ => Except.error "boom")) 1
          ([] ++ [Turn.observationTurn ("Tool execution failed: " ++ "boom")])
          ([] ++ [("search", "q")]) :=
  tool_failure_recovered.1 (fun _ => Except.ok (AgentStep.toolInvocation "search" "q"))
    (toolRegistry (fun _ _ => Except.error "boom")) 1 [] [] "search" "q" "boom"
    ⟨"search", "Search the web for information", (fun _ _ => Except.error "boom") "search"⟩
    rfl rfl rfl

/-- Claim C9: every executed tool invocation grows the trace by exactly
one while consuming one remaining iteration; a successful run performs
at most the configured bound of iterations; and a model that always
proposes tool invocations exhausts any bound with AgentExhaustedError —
the loop never spins forever and never returns a non-error result past
the bound. -/
theorem loop_bounded :
    (∀ (complete : List Turn → Except String AgentStep) (tools : List ToolDescriptor)
        (n : Nat) (ctx : List Turn) (trace : List (String × String))
        (name input : String) (td : ToolDescriptor),
        complete ctx = Except.ok (AgentStep.toolInvocation name input) →
        tools.find? (fun t2 => t2.name == name) = some td →
        ∃ ctx2, runLoop complete tools (n + 1) ctx trace
            = runLoop complete tools n ctx2 (trace ++ [(name, input)])
          ∧ (trace ++ [(name, input)]).length = trace.length + 1)
  ∧ (∀ (complete : List Turn → Except String AgentStep) (tools : List ToolDescriptor)
        (n : Nat) (ctx : List Turn) (trace : List (String × String)) (res : LoopResult),
        runLoop complete tools n ctx trace = Except.ok res →
        res.tool_call_trace.length ≤ trace.length + n)
  ∧ (∀ (complete : List Turn → Except String AgentStep) (tools : List ToolDescriptor),
        (∀ c2 : List Turn, ∃ name input td,
            complete c2 = Except.ok (AgentStep.toolInvocation name input)
            ∧ tools.find? (fun t2 => t2.name == name) = some td) →
        ∀ (n : Nat) (ctx : List Turn) (trace : List (String × String)),
          runLoop complete tools n ctx trace = Except.error LoopError.agentExhausted) := by
  refine ⟨?_, ?_, ?_⟩
  · intro complete tools n ctx trace name input td h1 h2
    cases hInv : td.invoke input with
    | ok obs =>
      exact ⟨ctx ++ [Turn.observationTurn obs], by simp [runLoop, h1, h2, hInv], by simp⟩
    | error msg =>
      exact ⟨ctx ++ [Turn.observationTurn ("Tool execution failed: " ++ msg)],
        by simp [runLoop, h1, h2, hInv], by simp⟩
  · intro complete tools n
    induction n with
    | zero => intro ctx trace res h; simp [runLoop] at h
    | succ m ih =>
      intro ctx trace res h
      simp only [runLoop] at h
      split at h
      · simp at h
      · injection h with h5
        subst h5
        exact Nat.le_add_right _ _
      · split at h
        · simp at h
        · split at h
          · have := ih _ _ _ h
            simp only [List.length_append, List.length_cons, List.length_nil] at this
            omega
          · have := ih _ _ _ h
            simp only [List.length_append, List.length_cons, List.length_nil] at this
            omega
  · intro complete tools hall n
    induction n with
    | zero => intro ctx trace; rfl
    | succ m ih =>
      intro ctx trace
      obtain ⟨name, input, td, hc, hf⟩ := hall ctx
      cases hInv : td.invoke input with
      | ok obs => simp [runLoop, hc, hf, hInv, ih]
      | error msg => simp [runLoop, hc, hf, hInv, ih]

/-- Witness for C9 at concrete loops. -/
theorem loop_bounded_witness :
    (∃ ctx2, runLoop (fun _ => Except.ok (AgentStep.toolInvocation "search" "q"))
          (toolRegistry (fun _ _ => Except.ok "result")) (0 + 1) [] []
        = runLoop (fun _ => Except.ok (AgentStep.toolInvocation "search" "q"))
            (toolRegistry (fun _ _ => Except.ok "result")) 0 ctx2 ([] ++ [("search", "q")])
      ∧ (([] : List (String × String)) ++ [("search", "q")]).length
          = ([] : List (String × String)).length + 1)
  ∧ (⟨"done", []⟩ : LoopResult).tool_call_trace.length
      ≤ ([] : List (String × String)).length + 1
  ∧ runLoop (fun _ => Except.ok (AgentStep.toolInvocation "search" "q"))
        (toolRegistry (fun _ _ => Except.ok "result")) 3 [] []
      = Except.error LoopError.agentExhausted :=
  ⟨loop_bounded.1 (fun _ => Except.ok (AgentStep.toolInvocation "search" "q"))
      (toolRegistry (fun _ _ => Except.ok "result")) 0 [] [] "search" "q"
      ⟨"search", "Search the web for information", (fun _ _ => Except.ok "result") "search"⟩
      rfl rfl,
   loop_bounded.2.1 (fun _ => Except.ok (AgentStep.finalAnswer "done"))
      (toolRegistry (fun _ _ => Except.ok "result")) 1 [] [] ⟨"done", []⟩ rfl,
   loop_bounded.2.2 (fun _ => Except.ok (AgentStep.toolInvocation "search" "q"))
      (toolRegistry (fun _ _ => Except.ok "result"))
      (fun _ => ⟨"search", "q",
        ⟨"search", "Search the web for information", (fun _ _ => Except.ok "result") "search"⟩,
        rfl, rfl⟩) 3 [] []⟩

/-- Claim C10: pressing the research button with an empty query only
shows the warning — the result is the same for every possible agent
outcome, so the agent is neither constructed nor invoked and no model
or tool call can occur. -/
theorem empty_query_warns_only (outcome : InvokeOutcome) :
    startResearch "" outcome
      = ([UIEvent.warningBox "⚠️ Please enter a research query."], none) := rfl
